import Mathlib

/-!
Verification of the fork-analysis engine (`main.py`) of the
Github_forks_update repository, via a shallow embedding in Lean 4.

Conventions of the embedding:
* Python machine-level effects (the threading event, `time.sleep`,
  network calls) are made explicit as event traces (`GateEvt`, `REvent`,
  `RemoteCall`).
* A remote call's outcome is supplied by an environment value
  (`QueryOutcome`, `CallOutcome`, `ForkEnv`): the embedding is a function
  of the code plus that environment.
* Python's `None`-returning fall-through is modelled with `Option`;
  an exception that escapes a function is modelled with an explicit
  result constructor.
* Timestamps are integers (seconds); `datetime` arithmetic in the source
  is plain subtraction on these.
-/

/-! ## Rate governor: `check_api_rate_limit` (main.py lines 76-119) -/

/-- Outcome of one `g.get_rate_limit()` query, as classified by the
source's exception handlers: a successful reply with `remaining` and
`reset` (an absolute instant), a `GithubException` carrying a status
code, or any other exception. -/
inductive QueryOutcome : Type
  | ok (remaining : Int) (reset : Int)
  | githubExc (status : Nat)
  | genericExc
deriving DecidableEq

/-- Observable actions of `check_api_rate_limit`: clearing the global
pause event (`api_pause_event.clear()`), waiting a number of seconds
(`wait_with_progress`), and setting the event (`api_pause_event.set()`). -/
inductive GateEvt : Type
  | clearE
  | waitE (secs : Int)
  | setE
deriving DecidableEq

/-- Shallow embedding of `check_api_rate_limit` (main.py lines 76-119).
`queries` supplies the outcome of each successive `get_rate_limit()`
call (the recursion consumes one per call); `now` is the current UTC
instant; `force` is the `force_wait` parameter.  The result is the
emitted event trace paired with the returned value: `none` when the
supplied environment runs out (unmodelled continuation), otherwise
`some r` where `r` is the Python return value — `some (remaining,
reset)` for a tuple and `none` for Python's implicit `None`
(the fall-through of the non-403 `GithubException` handler). -/
def check_api_rate_limit : List QueryOutcome → Int → Bool → List GateEvt × Option (Option (Int × Int))
  | [], _, _ => ([], none)
  | QueryOutcome.ok remaining reset :: rest, now, force =>
    if remaining < 100 ∨ force = true then
      -- trigger the global pause, wait out the window, then re-check
      if 0 < reset - now then
        let res := check_api_rate_limit rest (reset + 1) false
        (GateEvt.clearE :: GateEvt.waitE (reset - now + 1) :: GateEvt.setE :: res.1, res.2)
      else
        let res := check_api_rate_limit rest now false
        (GateEvt.clearE :: GateEvt.setE :: res.1, res.2)
    else
      ([], some (some (remaining, reset)))
  | QueryOutcome.githubExc status :: rest, now, _ =>
    if status = 403 then
      -- conservative fixed one-hour wait, then re-check
      let res := check_api_rate_limit rest (now + 3600) false
      (GateEvt.clearE :: GateEvt.waitE 3600 :: GateEvt.setE :: res.1, res.2)
    else
      -- the handler body is skipped and the function falls through,
      -- returning Python None
      ([], some none)
  | QueryOutcome.genericExc :: _, now, _ =>
    -- conservative five-minute wait, then a zero-budget snapshot
    ([GateEvt.waitE 300], some (some (0, now)))

/-! ## Retry executor: `retry_with_backoff` (main.py lines 121-171) -/

/-- Outcome of one invocation of the wrapped operation, as classified by
the source's handlers: success, `RateLimitExceededException`,
`GithubException` with a status code, or any other exception. -/
inductive CallOutcome (α : Type) : Type
  | success (v : α)
  | rateLimited
  | githubExc (status : Nat)
  | genericExc
deriving DecidableEq

/-- Observable actions of `retry_with_backoff`: invoking the wrapped
operation, and the three wait flavours (rate-limit backoff, 403
backoff, generic backoff). -/
inductive REvent : Type
  | callE
  | rateLimitWaitE
  | forbiddenWaitE
  | backoffWaitE
deriving DecidableEq

/-- How `retry_with_backoff` terminates: a returned value, a re-raised
`GithubException` (status recorded; 404 is the not-found case), a
re-raised generic exception, or the terminal `Exception` raised after
the attempt loop is exhausted.  `unspecified` marks exhaustion of the
supplied outcome environment, not a behaviour of the code. -/
inductive RResult (α : Type) : Type
  | ok (v : α)
  | raisedGithub (status : Nat)
  | raisedGeneric
  | exhausted
  | unspecified
deriving DecidableEq

/-- Shallow embedding of `retry_with_backoff` (main.py lines 121-171).
`outcomes` supplies the result of each successive invocation of the
wrapped operation; `attempt` is the loop index (0-based) and
`max_attempts` the bound.  Mirrors the source exactly: success returns;
`RateLimitExceededException` waits and retries unless this was the last
attempt (then the loop ends and the exhaustion `Exception` is raised);
`GithubException` with status 403 waits and retries (even on the last
attempt, after which the loop ends exhausted), any other status —
404 in particular — re-raises immediately; a generic exception
re-raises on the last attempt, otherwise waits and retries. -/
def retry_with_backoff {α : Type} (max_attempts : Nat) : Nat → List (CallOutcome α) → List REvent × RResult α
  | attempt, outcomes =>
    if attempt < max_attempts then
      match outcomes with
      | [] => ([], RResult.unspecified)
      | o :: rest =>
        match o with
        | CallOutcome.success v => ([REvent.callE], RResult.ok v)
        | CallOutcome.rateLimited =>
          if attempt < max_attempts - 1 then
            let res := retry_with_backoff max_attempts (attempt + 1) rest
            (REvent.callE :: REvent.rateLimitWaitE :: res.1, res.2)
          else
            ([REvent.callE], RResult.exhausted)
        | CallOutcome.githubExc status =>
          if status = 403 then
            let res := retry_with_backoff max_attempts (attempt + 1) rest
            (REvent.callE :: REvent.forbiddenWaitE :: res.1, res.2)
          else
            ([REvent.callE], RResult.raisedGithub status)
        | CallOutcome.genericExc =>
          if attempt = max_attempts - 1 then
            ([REvent.callE], RResult.raisedGeneric)
          else
            let res := retry_with_backoff max_attempts (attempt + 1) rest
            (REvent.callE :: REvent.backoffWaitE :: res.1, res.2)
    else
      ([], RResult.exhausted)

/-! ## Fork task: `process_fork` (main.py lines 267-388) -/

/-- A `repo.compare(...)` result: commits ahead of and behind the base. -/
structure Comparison : Type where
  ahead_by : Int
  behind_by : Int
deriving DecidableEq

/-- Outcome of one `repo.compare(base, head)` call inside the per-branch
loop: success, a 404 `GithubException` (no common ancestor, silently
skipped), or any other failure (warned and skipped). -/
inductive CmpResult : Type
  | ok (c : Comparison)
  | notFound404
  | err
deriving DecidableEq

/-- The fields of a resolved fork repository that `process_fork` reads. -/
structure RepoData : Type where
  full_name : String
  html_url : String
  stargazers_count : Int
  forks_count : Int
  updated_at : Int
  description : Option String
  default_branch : String
deriving DecidableEq

/-- Environment supplying the remote-call outcomes one `process_fork`
execution observes: the existence re-check result
(`check_repository_exists` through `retry_with_backoff`, `none` when
the fork no longer resolves), the first commit date returned by
`get_commits_safely` (`none` for an empty page), the branch listing
(`none` when `get_branches` raises and the outer handler fires), and
the per-branch comparison outcome keyed by head branch name. -/
structure ForkEnv : Type where
  fork_repo : Option RepoData
  commits_first_date : Option Int
  branches : Option (List String)
  compare : String → CmpResult

/-- The `fork_info` dict built by `process_fork`. -/
structure ForkInfo : Type where
  name : String
  url : String
  stars : Int
  forks : Int
  last_updated : Int
  description : String
  default_branch : String
  ahead_by : Option Int
  behind_by : Option Int
  branches : List String
  branch_comparisons : List (String × Comparison)
deriving DecidableEq

/-- The module-level mutable state `process_fork` touches: the four
counters and the `processed_forks` set (modelled as a duplicate-free
insertion list). -/
structure PState : Type where
  processed_count : Nat
  error_count : Nat
  skipped_count : Nat
  nonexistent_count : Nat
  processed_forks : List String
deriving DecidableEq

/-- Remote calls issued by `process_fork`, for the at-most-once claim. -/
inductive RemoteCall : Type
  | existenceCheck
  | getCommits
  | getBranches
  | compareCall (branch : String)
deriving DecidableEq

/-- The per-branch comparison loop of `process_fork` (main.py lines
318-348).  Walks the branch list, recording each successful comparison
in `branch_comparisons`; when the branch is the fork's default branch
it also fills the top-level `ahead_by`/`behind_by`, and — when
`skip_no_diff` holds and the comparison is 0/0 — returns early
(modelled as `none`), which in the source is the skipped-fork
`return None`.  404 comparisons pass silently, other failures warn and
continue; both leave the record unchanged.  Also returns the compare
calls issued. -/
def compare_branches (cmp : String → CmpResult) (default_branch : String) (skip_no_diff : Bool) :
    List String → ForkInfo → List RemoteCall × Option ForkInfo
  | [], info => ([], some info)
  | b :: rest, info =>
    match cmp b with
    | CmpResult.ok c =>
      let info := { info with branch_comparisons := info.branch_comparisons ++ [(b, c)] }
      if b = default_branch then
        let info := { info with ahead_by := some c.ahead_by, behind_by := some c.behind_by }
        if skip_no_diff = true ∧ c.ahead_by = 0 ∧ c.behind_by = 0 then
          ([RemoteCall.compareCall b], none)
        else
          let res := compare_branches cmp default_branch skip_no_diff rest info
          (RemoteCall.compareCall b :: res.1, res.2)
      else
        let res := compare_branches cmp default_branch skip_no_diff rest info
        (RemoteCall.compareCall b :: res.1, res.2)
    | CmpResult.notFound404 =>
      let res := compare_branches cmp default_branch skip_no_diff rest info
      (RemoteCall.compareCall b :: res.1, res.2)
    | CmpResult.err =>
      let res := compare_branches cmp default_branch skip_no_diff rest info
      (RemoteCall.compareCall b :: res.1, res.2)

/-- The completion epilogue of `process_fork` (main.py lines 373-381):
increment `processed_count`, add the identifier to `processed_forks`,
return the record. -/
def complete_fork (fork_full_name : String) (info : ForkInfo) (st : PState)
    (calls : List RemoteCall) : Option ForkInfo × PState × List RemoteCall :=
  (some info,
   { st with processed_count := st.processed_count + 1,
             processed_forks := st.processed_forks ++ [fork_full_name] },
   calls)

/-- Shallow embedding of `process_fork` (main.py lines 267-388) for one
fork identified by `fork_full_name`, with remote outcomes supplied by
`env`.  Returns the produced record (if any), the updated shared state,
and the remote calls issued.  Mirrors the source: the fast exit when
the identifier is already in `processed_forks`; the nonexistent path
(counter incremented, identifier marked processed, no record); the
commit-date fallback to `updated_at`; the branch path (listing plus the
per-branch loop when `show_comparison`) and the no-branch path (a
single default-branch comparison when `show_comparison`); the
skip-no-diff early return, which increments `skipped_count` and
`processed_count` but does not touch `processed_forks`; and the normal
completion. -/
def process_fork (fork_full_name : String) (env : ForkEnv)
    (show_comparison skip_no_diff check_branches : Bool) (st : PState) :
    Option ForkInfo × PState × List RemoteCall :=
  if fork_full_name ∈ st.processed_forks then
    (none, st, [])
  else
    match env.fork_repo with
    | none =>
      (none,
       { st with nonexistent_count := st.nonexistent_count + 1,
                 processed_count := st.processed_count + 1,
                 processed_forks := st.processed_forks ++ [fork_full_name] },
       [RemoteCall.existenceCheck])
    | some fork_repo =>
      let last_commit_date := env.commits_first_date.getD fork_repo.updated_at
      let fork_info : ForkInfo := {
        name := fork_repo.full_name
        url := fork_repo.html_url
        stars := fork_repo.stargazers_count
        forks := fork_repo.forks_count
        last_updated := last_commit_date
        description := fork_repo.description.getD "无描述"
        default_branch := fork_repo.default_branch
        ahead_by := none
        behind_by := none
        branches := []
        branch_comparisons := [] }
      if check_branches = true then
        match env.branches with
        | none =>
          -- get_branches raised: warning logged, record completed as-is
          complete_fork fork_full_name fork_info st
            [RemoteCall.existenceCheck, RemoteCall.getCommits, RemoteCall.getBranches]
        | some bs =>
          let fork_info := { fork_info with branches := bs }
          if show_comparison = true then
            let res := compare_branches env.compare fork_repo.default_branch skip_no_diff bs fork_info
            match res.2 with
            | none =>
              (none,
               { st with skipped_count := st.skipped_count + 1,
                         processed_count := st.processed_count + 1 },
               RemoteCall.existenceCheck :: RemoteCall.getCommits :: RemoteCall.getBranches :: res.1)
            | some info =>
              complete_fork fork_full_name info st
                (RemoteCall.existenceCheck :: RemoteCall.getCommits :: RemoteCall.getBranches :: res.1)
          else
            complete_fork fork_full_name fork_info st
              [RemoteCall.existenceCheck, RemoteCall.getCommits, RemoteCall.getBranches]
      else
        if show_comparison = true then
          match env.compare fork_repo.default_branch with
          | CmpResult.ok c =>
            let fork_info := { fork_info with ahead_by := some c.ahead_by, behind_by := some c.behind_by }
            if skip_no_diff = true ∧ c.ahead_by = 0 ∧ c.behind_by = 0 then
              (none,
               { st with skipped_count := st.skipped_count + 1,
                         processed_count := st.processed_count + 1 },
               [RemoteCall.existenceCheck, RemoteCall.getCommits,
                RemoteCall.compareCall fork_repo.default_branch])
            else
              complete_fork fork_full_name fork_info st
                [RemoteCall.existenceCheck, RemoteCall.getCommits,
                 RemoteCall.compareCall fork_repo.default_branch]
          | CmpResult.notFound404 =>
            complete_fork fork_full_name fork_info st
              [RemoteCall.existenceCheck, RemoteCall.getCommits,
               RemoteCall.compareCall fork_repo.default_branch]
          | CmpResult.err =>
            complete_fork fork_full_name fork_info st
              [RemoteCall.existenceCheck, RemoteCall.getCommits,
               RemoteCall.compareCall fork_repo.default_branch]
        else
          complete_fork fork_full_name fork_info st
            [RemoteCall.existenceCheck, RemoteCall.getCommits]

/-! ## Checkpoint store: `save_progress` (main.py lines 222-237) and
`load_progress` (main.py lines 239-265) -/

/-- The sequence of observable on-disk contents of the checkpoint file
during a successful `save_progress`: the previous content, then the
empty file (opening with mode `w` truncates before anything is
written), then the newly serialized checkpoint once `json.dump`
completes.  The source writes the file in place; there is no temporary
file and no rename. -/
def save_progress_states (oldContent newContent : String) : List String :=
  [oldContent, "", newContent]

/-- The observable on-disk contents when `json.dump` fails right after
the truncating open: the previous content, then the empty file.  The
exception is caught and logged (main.py lines 236-237), so the file is
left in this state. -/
def save_progress_states_failed (oldContent : String) : List String :=
  [oldContent, ""]

/-- A write is an atomic whole-file replace when every content an
interleaved reader can observe is either the old checkpoint or the new
one. -/
def atomic_replace (states : List String) (oldContent newContent : String) : Prop :=
  ∀ s ∈ states, s = oldContent ∨ s = newContent

instance (states : List String) (oldContent newContent : String) :
    Decidable (atomic_replace states oldContent newContent) := by
  unfold atomic_replace
  infer_instance

/-- The fields the checkpoint JSON object may carry, each optional
(`data.get` with a default in the source).  Records of the `forks_info`
list are `ForkInfo` values. -/
structure CheckpointData : Type where
  repo_path : Option String
  forks_info : Option (List ForkInfo)
  processed_fork_names : Option (List String)
  timestamp : Option String
deriving DecidableEq

/-- The state of the checkpoint file as `load_progress` can find it:
absent, unreadable (the `open` raises), malformed (the `json.load`
raises), or a parsed JSON object. -/
inductive FileState : Type
  | absent
  | unreadable
  | malformedJson
  | valid (d : CheckpointData)
deriving DecidableEq

/-- The body of `load_progress`'s `try` block (main.py lines 246-262),
with a raised exception as `Except.error`: reading/parsing the file can
fail; a parsed object whose `repo_path` differs from the requested one
(a missing field reads as Python `None`, which also differs) is
discarded; otherwise the stored `forks_info` and `processed_fork_names`
are returned, missing fields defaulting to empty collections. -/
def load_progress_try (repo_path : String) (fs : FileState) :
    Except String (List ForkInfo × List String) :=
  match fs with
  | FileState.absent => Except.error "unreachable"
  | FileState.unreadable => Except.error "io error"
  | FileState.malformedJson => Except.error "json error"
  | FileState.valid d =>
    if d.repo_path ≠ some repo_path then
      Except.ok ([], [])
    else
      Except.ok (d.forks_info.getD [], d.processed_fork_names.getD [])

/-- Shallow embedding of `load_progress` (main.py lines 239-265): an
absent file yields a clean start before the `try`; any exception inside
the `try` is caught by the blanket handler, which also yields a clean
start; the interface never raises.  The processed set is modelled as
the list fed to Python's `set(...)`. -/
def load_progress (repo_path : String) (fs : FileState) : List ForkInfo × List String :=
  match fs with
  | FileState.absent => ([], [])
  | _ =>
    match load_progress_try repo_path fs with
    | Except.error _ => ([], [])
    | Except.ok r => r

/-! ## Report ordering (main.py lines 529-530 and 636-637) -/

/-- The sort both `print_forks_info` and `save_to_file` perform:
`sorted(forks_info, key=lambda x: x[last_updated], reverse=True)`.
Python's `sorted` is a stable sort; with `reverse=True` it orders by
the key descending while equal-key elements keep their input order,
which is exactly a stable merge sort under the total order
`b.last_updated ≤ a.last_updated`. -/
def sorted_forks (forks_info : List ForkInfo) : List ForkInfo :=
  forks_info.mergeSort (fun a b => decide (b.last_updated ≤ a.last_updated))

/-! ## Sample data used by witnesses and counterexamples -/

/-- A concrete resolved fork repository. -/
def sample_repo : RepoData :=
  { full_name := "owner/fork"
    html_url := "https://github.com/owner/fork"
    stargazers_count := 3
    forks_count := 1
    updated_at := 50
    description := some "demo"
    default_branch := "main" }

/-- A concrete fork environment: the fork resolves, has a commit, lists
two branches including its default branch, and every comparison yields
ahead 0 / behind 0. -/
def sample_env : ForkEnv :=
  { fork_repo := some sample_repo
    commits_first_date := some 77
    branches := some ["dev", "main"]
    compare := fun _ => CmpResult.ok ⟨0, 0⟩ }

/-- A concrete fork environment in which the existence re-check fails
to resolve the fork. -/
def sample_env_gone : ForkEnv :=
  { sample_env with fork_repo := none }

/-! ## Theorems -/

/-- Claim C5: an operation outcome classified as NotFound (a
`GithubException` with status 404) is never retried by
`retry_with_backoff`: the exception propagates on the very attempt that
produced it, with no backoff wait emitted and no further attempt
consumed — the event trace of the whole execution is the single
invocation. -/
theorem retry_with_backoff_notFound_propagates {α : Type}
    (rest : List (CallOutcome α)) (attempt max_attempts : Nat)
    (h : attempt < max_attempts) :
    retry_with_backoff max_attempts attempt (CallOutcome.githubExc 404 :: rest) =
      ([REvent.callE], RResult.raisedGithub 404) := by
  unfold retry_with_backoff
  rw [if_pos h]
  rfl

/-- Witness for C5 at a concrete input: with five attempts allowed and
a successful outcome still pending, a 404 on the first attempt
propagates immediately. -/
theorem retry_with_backoff_notFound_propagates_witness :
    0 < 5 ∧
    retry_with_backoff 5 0 [CallOutcome.githubExc 404, CallOutcome.success (7 : Nat)] =
      ([REvent.callE], RResult.raisedGithub 404) :=
  ⟨by decide,
   retry_with_backoff_notFound_propagates [CallOutcome.success (7 : Nat)] 0 5 (by decide)⟩

/-- Claim C6: when the fork's identifier is already in the processed
set, `process_fork` takes the fast exit — it returns no record, leaves
the shared state untouched, and issues no remote call. -/
theorem process_fork_already_processed (fork_full_name : String) (env : ForkEnv)
    (show_comparison skip_no_diff check_branches : Bool) (st : PState)
    (h : fork_full_name ∈ st.processed_forks) :
    process_fork fork_full_name env show_comparison skip_no_diff check_branches st =
      (none, st, []) := by
  simp [process_fork, h]

/-- Witness for C6 at a concrete input: a fork whose name is already in
the processed set is not reprocessed. -/
theorem process_fork_already_processed_witness :
    "owner/fork" ∈ (PState.mk 4 0 0 0 ["owner/fork"]).processed_forks ∧
    process_fork "owner/fork" sample_env true false true (PState.mk 4 0 0 0 ["owner/fork"]) =
      (none, PState.mk 4 0 0 0 ["owner/fork"], []) :=
  ⟨by decide,
   process_fork_already_processed "owner/fork" sample_env true false true _ (by decide)⟩

/-- Claim C7: when the existence re-check fails to resolve the fork,
`process_fork` increments the nonexistent counter by exactly one (and
the processed counter), adds the identifier to the processed set,
returns no record, and the only remote call issued was the existence
check — the function returns normally, so the run continues. -/
theorem process_fork_nonexistent (fork_full_name : String) (env : ForkEnv)
    (show_comparison skip_no_diff check_branches : Bool) (st : PState)
    (h1 : fork_full_name ∉ st.processed_forks) (h2 : env.fork_repo = none) :
    process_fork fork_full_name env show_comparison skip_no_diff check_branches st =
      (none,
       { st with nonexistent_count := st.nonexistent_count + 1,
                 processed_count := st.processed_count + 1,
                 processed_forks := st.processed_forks ++ [fork_full_name] },
       [RemoteCall.existenceCheck]) := by
  simp [process_fork, h1, h2]

/-- Witness for C7 at a concrete input: a deleted fork is counted
nonexistent and marked processed. -/
theorem process_fork_nonexistent_witness :
    ("owner/fork" ∉ (PState.mk 0 0 0 0 []).processed_forks ∧
     sample_env_gone.fork_repo = none) ∧
    process_fork "owner/fork" sample_env_gone true false true (PState.mk 0 0 0 0 []) =
      (none, PState.mk 1 0 0 1 ["owner/fork"], [RemoteCall.existenceCheck]) :=
  ⟨⟨by decide, rfl⟩,
   process_fork_nonexistent "owner/fork" sample_env_gone true false true _ (by decide) rfl⟩

/-- Claim C8: `load_progress` uses a parsed checkpoint only when its
stored `repo_path` equals the requested repository identifier; a
checkpoint whose `repo_path` differs (including a missing field, which
Python reads as `None`) is discarded and the run starts clean with an
empty result list and an empty processed set, while a matching one
yields the stored collections. -/
theorem load_progress_repo_gate (repo_path : String) (d : CheckpointData) :
    (d.repo_path ≠ some repo_path →
       load_progress repo_path (FileState.valid d) = ([], [])) ∧
    (d.repo_path = some repo_path →
       load_progress repo_path (FileState.valid d) =
         (d.forks_info.getD [], d.processed_fork_names.getD [])) := by
  constructor
  · intro h
    simp [load_progress, load_progress_try, h]
  · intro h
    simp [load_progress, load_progress_try, h]

/-- Witness for C8 at a concrete input: a checkpoint saved for
repository a/b is discarded when the run targets a/c. -/
theorem load_progress_repo_gate_witness :
    (CheckpointData.mk (some "a/b") (some []) (some ["x/y"]) none).repo_path ≠ some "a/c" ∧
    load_progress "a/c"
      (FileState.valid (CheckpointData.mk (some "a/b") (some []) (some ["x/y"]) none)) = ([], []) :=
  ⟨by decide,
   (load_progress_repo_gate "a/c" (CheckpointData.mk (some "a/b") (some []) (some ["x/y"]) none)).1
     (by decide)⟩

/-- Claim C10: `load_progress` is total at its interface — every raise
inside the `try` body is caught by the blanket handler, so for every
repository identifier and file state it returns a value: a clean start
(empty result list, empty processed set) in every failure case (absent
file, unreadable file, malformed JSON, mismatching checkpoint), the
stored collections with missing fields defaulted to empty collections
otherwise — in particular a matching checkpoint whose `forks_info` and
`processed_fork_names` fields are both missing loads as a clean
start. -/
theorem load_progress_total (repo_path : String) (fs : FileState) :
    (load_progress repo_path fs = ([], []) ∨
     ∃ d, fs = FileState.valid d ∧ d.repo_path = some repo_path ∧
       load_progress repo_path fs = (d.forks_info.getD [], d.processed_fork_names.getD [])) ∧
    (fs = FileState.absent ∨ fs = FileState.unreadable ∨ fs = FileState.malformedJson →
       load_progress repo_path fs = ([], [])) ∧
    (∀ d, fs = FileState.valid d → d.repo_path = some repo_path →
       d.forks_info = none → d.processed_fork_names = none →
       load_progress repo_path fs = ([], [])) := by
  refine ⟨?_, ?_, ?_⟩
  · match fs with
    | FileState.absent => exact Or.inl rfl
    | FileState.unreadable => exact Or.inl rfl
    | FileState.malformedJson => exact Or.inl rfl
    | FileState.valid d =>
      by_cases h : d.repo_path = some repo_path
      · exact Or.inr ⟨d, rfl, h, by simp [load_progress, load_progress_try, h]⟩
      · exact Or.inl (by simp [load_progress, load_progress_try, h])
  · rintro (rfl | rfl | rfl) <;> rfl
  · rintro d rfl hmatch hforks hnames
    simp [load_progress, load_progress_try, hmatch, hforks, hnames]

/-- Witness for C10 at a concrete input: a malformed checkpoint file
yields a clean start; a matching checkpoint with both collection fields
missing also yields a clean start. -/
theorem load_progress_total_witness :
    (FileState.malformedJson = FileState.absent ∨
     FileState.malformedJson = FileState.unreadable ∨
     (FileState.malformedJson : FileState) = FileState.malformedJson) ∧
    load_progress "a/b" FileState.malformedJson = ([], []) ∧
    load_progress "a/b" (FileState.valid (CheckpointData.mk (some "a/b") none none none)) = ([], []) :=
  ⟨Or.inr (Or.inr rfl),
   (load_progress_total "a/b" FileState.malformedJson).2.1 (Or.inr (Or.inr rfl)),
   (load_progress_total "a/b" (FileState.valid (CheckpointData.mk (some "a/b") none none none))).2.2
     (CheckpointData.mk (some "a/b") none none none) rfl rfl rfl rfl⟩

/-- Counterexample to claim C3 as stated: a `GithubException` with
status 500 raised while fetching the rate limit is a budget-query
failure that is not the access-forbidden (403) signal, yet
`check_api_rate_limit` neither waits five minutes nor returns a
zero-budget snapshot — the status-403 test fails, the handler body is
skipped, and the function falls through returning Python `None` with
no wait performed. -/
theorem check_api_rate_limit_non403_counterexample :
    GateEvt.waitE 300 ∉ (check_api_rate_limit [QueryOutcome.githubExc 500] 0 false).1 ∧
    (check_api_rate_limit [QueryOutcome.githubExc 500] 0 false).2 = some none := by
  decide

/-- Claim C3 amended: only a budget-query failure that is not a
`GithubException` reaches the conservative handler, which waits a fixed
five minutes (300 s) and returns the zero-budget snapshot
`(0, current time)` without raising; a `GithubException` whose status
is not 403 is caught by the earlier handler, whose body is skipped, so
the function returns Python `None` with no wait. -/
theorem check_api_rate_limit_query_failure (rest : List QueryOutcome) (now : Int)
    (force : Bool) (status : Nat) (hs : status ≠ 403) :
    check_api_rate_limit (QueryOutcome.genericExc :: rest) now force =
      ([GateEvt.waitE 300], some (some (0, now))) ∧
    check_api_rate_limit (QueryOutcome.githubExc status :: rest) now force =
      ([], some none) := by
  exact ⟨rfl, by simp [check_api_rate_limit, hs]⟩

/-- Witness for the amended C3 at a concrete input. -/
theorem check_api_rate_limit_query_failure_witness :
    (500 : Nat) ≠ 403 ∧
    check_api_rate_limit [QueryOutcome.genericExc] 42 false =
      ([GateEvt.waitE 300], some (some (0, 42))) ∧
    check_api_rate_limit [QueryOutcome.githubExc 500] 42 false = ([], some none) :=
  ⟨by decide,
   (check_api_rate_limit_query_failure [] 42 false 500 (by decide)).1,
   (check_api_rate_limit_query_failure [] 42 false 500 (by decide)).2⟩

/-- Counterexample to claim C2 as stated: `save_progress` opens the
checkpoint file with mode `w`, which truncates it in place before
`json.dump` writes the new contents, so an interleaved reader can
observe the empty intermediate state — which is neither the previous
checkpoint nor the new one.  The write is not an atomic whole-file
replace. -/
theorem save_progress_not_atomic :
    ¬ atomic_replace (save_progress_states "checkpoint-v1" "checkpoint-v2")
        "checkpoint-v1" "checkpoint-v2" := by
  decide

/-- Claim C2 amended: `save_progress` writes the checkpoint by
truncating the file in place and then writing the new serialization,
so for any non-empty old and new checkpoint contents an interleaved
reader can observe the truncated (empty) intermediate state, the write
is not an atomic whole-file replace, and when the write fails after
the truncating open the file is left empty — the previously persisted
checkpoint is lost, not kept intact (the exception is caught and
logged, not raised). -/
theorem save_progress_truncates_in_place (oldContent newContent : String)
    (h1 : oldContent ≠ "") (h2 : newContent ≠ "") :
    "" ∈ save_progress_states oldContent newContent ∧
    ¬ atomic_replace (save_progress_states oldContent newContent) oldContent newContent ∧
    (save_progress_states_failed oldContent).getLast? = some "" ∧
    (save_progress_states_failed oldContent).getLast? ≠ some oldContent := by
  refine ⟨by simp [save_progress_states], ?_, rfl, ?_⟩
  · intro h
    rcases h "" (by simp [save_progress_states]) with h' | h'
    · exact h1 h'.symm
    · exact h2 h'.symm
  · intro h
    rw [show (save_progress_states_failed oldContent).getLast? = some "" from rfl] at h
    exact h1 (Option.some_injective _ h).symm

/-- Witness for the amended C2 at a concrete input. -/
theorem save_progress_truncates_in_place_witness :
    (("checkpoint-v1" : String) ≠ "" ∧ ("checkpoint-v2" : String) ≠ "") ∧
    ("" ∈ save_progress_states "checkpoint-v1" "checkpoint-v2" ∧
     ¬ atomic_replace (save_progress_states "checkpoint-v1" "checkpoint-v2")
         "checkpoint-v1" "checkpoint-v2" ∧
     (save_progress_states_failed "checkpoint-v1").getLast? = some "" ∧
     (save_progress_states_failed "checkpoint-v1").getLast? ≠ some "checkpoint-v1") :=
  ⟨⟨by decide, by decide⟩,
   save_progress_truncates_in_place "checkpoint-v1" "checkpoint-v2" (by decide) (by decide)⟩

/-- Claim C4: when the rate-limit query reports a remaining budget
below the safety threshold of 100, or the caller passed `force_wait`,
and the disclosed reset instant lies in the future,
`check_api_rate_limit` clears the global pause event (closing the gate
for every caller), waits exactly until the reset instant plus a
one-second margin, sets the event again, and then re-verifies the
budget by calling itself recursively on the remaining environment —
the value it returns is exactly the recursive call's value. -/
theorem check_api_rate_limit_low_budget (rest : List QueryOutcome)
    (now reset remaining : Int) (force : Bool)
    (hlow : remaining < 100 ∨ force = true) (hreset : now < reset) :
    check_api_rate_limit (QueryOutcome.ok remaining reset :: rest) now force =
      (GateEvt.clearE :: GateEvt.waitE (reset - now + 1) :: GateEvt.setE ::
         (check_api_rate_limit rest (reset + 1) false).1,
       (check_api_rate_limit rest (reset + 1) false).2) := by
  have h0 : 0 < reset - now := by omega
  conv_lhs => simp only [check_api_rate_limit]
  rw [if_pos hlow, if_pos h0]

/-- Witness for C4 at a concrete input: remaining 5 with threshold 100
and reset at t=10 seen at t=0 closes the gate, waits 11 seconds, and
the returned snapshot is the one from the re-check. -/
theorem check_api_rate_limit_low_budget_witness :
    ((5 : Int) < 100 ∨ false = true) ∧ (0 : Int) < 10 ∧
    check_api_rate_limit [QueryOutcome.ok 5 10, QueryOutcome.ok 5000 3610] 0 false =
      ([GateEvt.clearE, GateEvt.waitE 11, GateEvt.setE], some (some (5000, 3610))) :=
  ⟨Or.inl (by decide), by decide,
   (check_api_rate_limit_low_budget [QueryOutcome.ok 5000 3610] 0 10 5 false
      (Or.inl (by decide)) (by decide)).trans (by decide)⟩

/-- Helper for C1: in the per-branch loop with `skip_no_diff` enabled,
if the default branch occurs in the branch list and its comparison is
ahead 0 / behind 0, the loop takes the early skip return. -/
theorem compare_branches_skip_hit (cmp : String → CmpResult) (default_branch : String)
    (bs : List String) (info : ForkInfo)
    (hmem : default_branch ∈ bs) (hcmp : cmp default_branch = CmpResult.ok ⟨0, 0⟩) :
    (compare_branches cmp default_branch true bs info).2 = none := by
  induction bs generalizing info with
  | nil => simp at hmem
  | cons b rest ih =>
    by_cases hbd : b = default_branch
    · subst hbd
      simp only [compare_branches, hcmp, if_pos rfl]
      simp
    · have hmem2 : default_branch ∈ rest := by
        rcases List.mem_cons.mp hmem with h | h
        · exact absurd h.symm hbd
        · exact h
      cases hc : cmp b with
      | ok c =>
        simp only [compare_branches, hc, if_neg hbd]
        exact ih _ hmem2
      | notFound404 =>
        simp only [compare_branches, hc]
        exact ih _ hmem2
      | err =>
        simp only [compare_branches, hc]
        exact ih _ hmem2

/-- Helper for C1: in the per-branch loop with `skip_no_diff` disabled,
when the default branch's comparison is ahead 0 / behind 0, the loop
never takes the early return, and — provided the default branch occurs
in the list or the summary fields are already 0/0 — the resulting
record has `ahead_by = some 0` and `behind_by = some 0`. -/
theorem compare_branches_no_skip (cmp : String → CmpResult) (default_branch : String)
    (bs : List String) (info : ForkInfo)
    (hcmp : cmp default_branch = CmpResult.ok ⟨0, 0⟩)
    (hbase : (info.ahead_by = some 0 ∧ info.behind_by = some 0) ∨ default_branch ∈ bs) :
    ∃ info2, (compare_branches cmp default_branch false bs info).2 = some info2 ∧
      info2.ahead_by = some 0 ∧ info2.behind_by = some 0 := by
  induction bs generalizing info with
  | nil =>
    rcases hbase with ⟨ha, hb⟩ | hmem
    · exact ⟨info, rfl, ha, hb⟩
    · simp at hmem
  | cons b rest ih =>
    by_cases hbd : b = default_branch
    · subst hbd
      simp only [compare_branches, hcmp, eq_self_iff_true, if_true, Bool.false_eq_true,
        false_and, if_false]
      exact ih _ (Or.inl ⟨rfl, rfl⟩)
    · cases hc : cmp b with
      | ok c =>
        simp only [compare_branches, hc, if_neg hbd]
        refine ih _ ?_
        rcases hbase with ⟨ha, hb⟩ | hmem
        · exact Or.inl ⟨ha, hb⟩
        · rcases List.mem_cons.mp hmem with h | h
          · exact absurd h.symm hbd
          · exact Or.inr h
      | notFound404 =>
        simp only [compare_branches, hc]
        refine ih _ ?_
        rcases hbase with ⟨ha, hb⟩ | hmem
        · exact Or.inl ⟨ha, hb⟩
        · rcases List.mem_cons.mp hmem with h | h
          · exact absurd h.symm hbd
          · exact Or.inr h
      | err =>
        simp only [compare_branches, hc]
        refine ih _ ?_
        rcases hbase with ⟨ha, hb⟩ | hmem
        · exact Or.inl ⟨ha, hb⟩
        · rcases List.mem_cons.mp hmem with h | h
          · exact absurd h.symm hbd
          · exact Or.inr h

/-- Counterexample to claim C1 as stated: running `process_fork` with
`skip_no_diff` enabled on a fork whose default-branch comparison is
ahead 0 / behind 0 does terminate as skipped with no record and the
skipped counter incremented — but the fork's identifier is NOT added to
the processed set: the skip-no-diff early return increments only the
counters (main.py lines 332-337 and 361-366 contain no
`processed_forks.add`), so after the call the processed set is still
empty. -/
theorem process_fork_skip_counterexample :
    (process_fork "owner/fork" sample_env true true true (PState.mk 0 0 0 0 [])).1 = none ∧
    (process_fork "owner/fork" sample_env true true true (PState.mk 0 0 0 0 [])).2.1.skipped_count = 1 ∧
    "owner/fork" ∉
      (process_fork "owner/fork" sample_env true true true (PState.mk 0 0 0 0 [])).2.1.processed_forks := by
  decide

/-- Claim C1 amended: for a fork (not yet processed) whose
default-branch comparison yields ahead 0 / behind 0 — in both the
branch-enumeration path (the default branch occurs in the listing) and
the no-branch path — `process_fork` with `skip_no_diff` enabled
terminates as skipped: it increments the skipped and processed
counters and returns no record, but does NOT add the fork's identifier
to the processed set (the state update leaves `processed_forks`
unchanged); with `skip_no_diff` disabled the fork is included in the
result with `ahead_by = 0` and `behind_by = 0`, and its identifier is
added to the processed set. -/
theorem process_fork_skip_no_diff (fork_full_name : String) (env : ForkEnv)
    (fork_repo : RepoData) (bs : List String) (st : PState) (check_branches : Bool)
    (h1 : fork_full_name ∉ st.processed_forks)
    (h2 : env.fork_repo = some fork_repo)
    (h3 : env.compare fork_repo.default_branch = CmpResult.ok ⟨0, 0⟩)
    (h4 : env.branches = some bs)
    (h5 : fork_repo.default_branch ∈ bs) :
    ((process_fork fork_full_name env true true check_branches st).1 = none ∧
     (process_fork fork_full_name env true true check_branches st).2.1 =
       { st with skipped_count := st.skipped_count + 1,
                 processed_count := st.processed_count + 1 } ∧
     fork_full_name ∉
       (process_fork fork_full_name env true true check_branches st).2.1.processed_forks) ∧
    (∃ info, (process_fork fork_full_name env true false check_branches st).1 = some info ∧
       info.ahead_by = some 0 ∧ info.behind_by = some 0 ∧
       (process_fork fork_full_name env true false check_branches st).2.1.processed_forks =
         st.processed_forks ++ [fork_full_name]) := by
  constructor
  · cases check_branches with
    | false =>
      have hrun : process_fork fork_full_name env true true false st =
          (none,
           { st with skipped_count := st.skipped_count + 1,
                     processed_count := st.processed_count + 1 },
           [RemoteCall.existenceCheck, RemoteCall.getCommits,
            RemoteCall.compareCall fork_repo.default_branch]) := by
        simp [process_fork, h1, h2, h3]
      rw [hrun]
      exact ⟨rfl, rfl, h1⟩
    | true =>
      have hskip := compare_branches_skip_hit env.compare fork_repo.default_branch bs
      have hrun : (process_fork fork_full_name env true true true st).1 = none ∧
          (process_fork fork_full_name env true true true st).2.1 =
            { st with skipped_count := st.skipped_count + 1,
                      processed_count := st.processed_count + 1 } := by
        simp only [process_fork, h2, h4]
        rw [if_neg h1]
        rw [hskip _ h5 h3]
        simp
      exact ⟨hrun.1, hrun.2, by rw [hrun.2]; exact h1⟩
  · cases check_branches with
    | false =>
      refine ⟨{ name := fork_repo.full_name
                url := fork_repo.html_url
                stars := fork_repo.stargazers_count
                forks := fork_repo.forks_count
                last_updated := env.commits_first_date.getD fork_repo.updated_at
                description := fork_repo.description.getD "无描述"
                default_branch := fork_repo.default_branch
                ahead_by := some 0
                behind_by := some 0
                branches := []
                branch_comparisons := [] }, ?_, rfl, rfl, ?_⟩
      · simp [process_fork, h1, h2, h3, complete_fork]
      · simp [process_fork, h1, h2, h3, complete_fork]
    | true =>
      obtain ⟨info2, heq, ha, hb⟩ :=
        compare_branches_no_skip env.compare fork_repo.default_branch bs
          { name := fork_repo.full_name
            url := fork_repo.html_url
            stars := fork_repo.stargazers_count
            forks := fork_repo.forks_count
            last_updated := env.commits_first_date.getD fork_repo.updated_at
            description := fork_repo.description.getD "无描述"
            default_branch := fork_repo.default_branch
            ahead_by := none
            behind_by := none
            branches := bs
            branch_comparisons := [] } h3 (Or.inr h5)
      have hrun : (process_fork fork_full_name env true false true st).1 = some info2 ∧
          (process_fork fork_full_name env true false true st).2.1.processed_forks =
            st.processed_forks ++ [fork_full_name] := by
        simp only [process_fork, h2, h4]
        rw [if_neg h1]
        rw [heq]
        simp [complete_fork]
      exact ⟨info2, hrun.1, ha, hb, hrun.2⟩

/-- Witness for the amended C1 at a concrete input: with `skip_no_diff`
the zero-diff fork yields no record and an unchanged processed set;
without it the fork is included with ahead 0 / behind 0. -/
theorem process_fork_skip_no_diff_witness :
    ("owner/fork" ∉ (PState.mk 0 0 0 0 []).processed_forks ∧
     sample_repo.default_branch ∈ ["dev", "main"]) ∧
    (((process_fork "owner/fork" sample_env true true true (PState.mk 0 0 0 0 [])).1 = none ∧
      (process_fork "owner/fork" sample_env true true true (PState.mk 0 0 0 0 [])).2.1 =
        { (PState.mk 0 0 0 0 []) with skipped_count := (PState.mk 0 0 0 0 []).skipped_count + 1,
                                      processed_count := (PState.mk 0 0 0 0 []).processed_count + 1 } ∧
      "owner/fork" ∉
        (process_fork "owner/fork" sample_env true true true (PState.mk 0 0 0 0 [])).2.1.processed_forks) ∧
     (∃ info, (process_fork "owner/fork" sample_env true false true (PState.mk 0 0 0 0 [])).1 = some info ∧
        info.ahead_by = some 0 ∧ info.behind_by = some 0 ∧
        (process_fork "owner/fork" sample_env true false true (PState.mk 0 0 0 0 [])).2.1.processed_forks =
          (PState.mk 0 0 0 0 []).processed_forks ++ ["owner/fork"])) :=
  ⟨⟨by decide, by decide⟩,
   process_fork_skip_no_diff "owner/fork" sample_env sample_repo ["dev", "main"]
     (PState.mk 0 0 0 0 []) true (by decide) rfl rfl rfl (by decide)⟩

/-- Claim C9: the report/export ordering applied by `print_forks_info`
and `save_to_file` — `sorted_forks` — is exactly a reordering of the
accumulated records (a permutation) that is sorted by last-activity
timestamp descending, and it is stable: for every timestamp value, the
records carrying that timestamp appear in the output in exactly their
relative order in the input sequence. -/
theorem sorted_forks_spec (l : List ForkInfo) :
    List.Pairwise (fun a b => b.last_updated ≤ a.last_updated) (sorted_forks l) ∧
    (sorted_forks l).Perm l ∧
    ∀ k : Int, (sorted_forks l).filter (fun x => decide (x.last_updated = k)) =
      l.filter (fun x => decide (x.last_updated = k)) := by
  have htrans : ∀ a b c : ForkInfo,
      (fun a b : ForkInfo => decide (b.last_updated ≤ a.last_updated)) a b = true →
      (fun a b : ForkInfo => decide (b.last_updated ≤ a.last_updated)) b c = true →
      (fun a b : ForkInfo => decide (b.last_updated ≤ a.last_updated)) a c = true := by
    intro a b c hab hbc
    simp only [decide_eq_true_eq] at hab hbc ⊢
    exact le_trans hbc hab
  have htotal : ∀ a b : ForkInfo,
      ((fun a b : ForkInfo => decide (b.last_updated ≤ a.last_updated)) a b ||
       (fun a b : ForkInfo => decide (b.last_updated ≤ a.last_updated)) b a) = true := by
    intro a b
    simp only [Bool.or_eq_true, decide_eq_true_eq]
    exact le_total b.last_updated a.last_updated
  unfold sorted_forks
  refine ⟨?_, List.mergeSort_perm l _, ?_⟩
  · exact (List.sorted_mergeSort htrans htotal l).imp (by intro a b h; simpa using h)
  · intro k
    set p : ForkInfo → Bool := fun x => decide (x.last_updated = k) with hp
    have hall : ∀ a ∈ l.filter p, ∀ b ∈ l.filter p,
        (fun a b : ForkInfo => decide (b.last_updated ≤ a.last_updated)) a b = true := by
      intro a ha b hb
      have ha2 := (List.mem_filter.mp ha).2
      have hb2 := (List.mem_filter.mp hb).2
      simp only [hp, decide_eq_true_eq] at ha2 hb2
      simp only [decide_eq_true_eq]
      rw [ha2, hb2]
    have hpair := List.pairwise_of_forall_mem_list hall
    have hsub : (l.filter p).Sublist
        (l.mergeSort (fun a b => decide (b.last_updated ≤ a.last_updated))) :=
      List.mergeSort_stable htrans htotal hpair (List.filter_sublist l)
    have hsub2 := List.Sublist.filter p hsub
    have hidem : List.filter p (l.filter p) = l.filter p :=
      List.filter_eq_self.mpr (fun a ha => (List.mem_filter.mp ha).2)
    rw [hidem] at hsub2
    have hperm : ((l.mergeSort (fun a b => decide (b.last_updated ≤ a.last_updated))).filter p).Perm
        (l.filter p) :=
      List.Perm.filter p (List.mergeSort_perm l _)
    exact (hsub2.eq_of_length hperm.length_eq.symm).symm
